import Mathlib

/-!
Shallow embedding of the PyLine2 timeline audio engine
(`src/unnamed/part_000`, `src/Source/PythonRenderer.cpp`,
`TimelineModel.h` as concatenated at the end of `part_000`), with
theorems settling the spec claims.  C++ `double` arithmetic is modelled
by `ℚ`: the embedded algorithms use only field operations, comparisons,
`std::fmod`, `std::round` and clamping, all exact on rationals.
-/

set_option allowUnsafeReducibility true
attribute [semireducible] Rat.mul Rat.sub Rat.add Rat.div Rat.inv Rat.neg

set_option maxRecDepth 100000
set_option maxHeartbeats 1000000
set_option linter.unusedVariables false
set_option linter.unnecessarySimpa false

/-- C truncation toward zero, as used by `std::fmod`. -/
def ratTrunc (x : ℚ) : ℤ := if 0 ≤ x then ⌊x⌋ else ⌈x⌉

/-- `std::fmod x y = x - y * trunc (x / y)`. -/
def fmodQ (x y : ℚ) : ℚ := x - y * (ratTrunc (x / y) : ℚ)

/-- `std::round`: nearest integer, halves away from zero. -/
def ratRound (x : ℚ) : ℤ := if 0 ≤ x then ⌊x + 1/2⌋ else ⌈x - 1/2⌉

/-- `juce::jlimit lower upper value` on doubles. -/
def jlimit (lower upper value : ℚ) : ℚ :=
  if value < lower then lower else if upper < value then upper else value

/-- `juce::jlimit` on `int` sample counts. -/
def jlimitInt (lower upper value : ℤ) : ℤ :=
  if value < lower then lower else if upper < value then upper else value

/-- Model of a `juce::File`: full path and file name. -/
structure JFile where
  fullPath : String
  fileName : String
deriving DecidableEq, Repr

/-- Default-constructed `juce::File` (empty path). -/
def JFile.empty : JFile := ⟨"", ""⟩

/-- `struct AutomationPoint` (TimelineModel.h). -/
structure AutomationPoint where
  id : ℤ := 0
  timeSeconds : ℚ := 0
  value : ℚ := 0
deriving DecidableEq, Repr

/-- Model of `juce::AudioBuffer<float>`: `numSamples` is stored as in
JUCE, and the channel count is the length of `channels`; every operation
below keeps each channel list of length `numSamples`. -/
structure AudioBuffer where
  numSamples : ℕ
  channels : List (List ℚ)
deriving DecidableEq, Repr

/-- `buffer.getSample ch s` (0 outside the stored data). -/
def AudioBuffer.getSample (b : AudioBuffer) (ch s : ℕ) : ℚ :=
  (b.channels.getD ch []).getD s 0

/-- `struct Marker` (TimelineModel.h), field for field, with the C++
member initializers as defaults. -/
structure Marker where
  startTimeSeconds : ℚ := 0
  isDragging : Bool := false
  renderBars : ℤ := 0
  lastRenderedTempoBpm : ℚ := 0
  lastRenderedDurationSeconds : ℚ := 0
  lastRenderedPythonPath : String := ""
  waveform : List ℚ := []
  fadeInSeconds : ℚ := 0
  fadeOutSeconds : ℚ := 0
  pythonFile : JFile := JFile.empty
  renderedWavFile : JFile := JFile.empty
  renderedBuffer : Option AudioBuffer := none
  renderedSampleRate : ℚ := 0
deriving DecidableEq, Repr

/-- `struct Timeline` (TimelineModel.h), field for field; the owned
arrays become lists. -/
structure Timeline where
  tempoBpm : ℚ := 120
  durationSeconds : ℚ := 8
  beatsPerBar : ℤ := 4
  beatUnit : ℤ := 4
  viewStartSeconds : ℚ := 0
  viewDurationSeconds : ℚ := 0
  volume : ℚ := 1
  pan : ℚ := 0
  nextAutomationId : ℤ := 1
  volumeAutomation : List AutomationPoint := []
  panAutomation : List AutomationPoint := []
  automationExpanded : Bool := false
  zoomY : ℚ := 1
  automationZoomY : ℚ := 1
  repeatMarkers : List ℚ := []
  markers : List Marker := []
deriving DecidableEq, Repr

/-- `getLoopedLocalTime` (part_000 lines 9-45), translated branch for
branch: the `repeatMarkers.size()` cases, `std::fmod` with the
negative-remainder adjustment, and `juce::jlimit` clamping. -/
def getLoopedLocalTime (timeSeconds : ℚ) (timeline : Timeline) : ℚ :=
  if timeline.durationSeconds ≤ 0 then 0
  else if timeline.repeatMarkers.length = 1 then
    let loopStart := timeline.repeatMarkers.getD 0 0
    if loopStart > 0 ∧ timeSeconds ≥ loopStart then
      let localTime := fmodQ timeSeconds loopStart
      if localTime < 0 then localTime + loopStart else localTime
    else jlimit 0 timeline.durationSeconds timeSeconds
  else if timeline.repeatMarkers.length ≥ 2 then
    let loopStart := timeline.repeatMarkers.getD 0 0
    let loopEnd := timeline.repeatMarkers.getD 1 0
    if loopEnd > loopStart ∧ timeSeconds ≥ loopStart then
      let loopLen := loopEnd - loopStart
      let localTime := loopStart + fmodQ (timeSeconds - loopStart) loopLen
      if localTime < loopStart then localTime + loopLen else localTime
    else jlimit 0 timeline.durationSeconds timeSeconds
  else
    let localTime := fmodQ timeSeconds timeline.durationSeconds
    if localTime < 0 then localTime + timeline.durationSeconds else localTime

/-- `isAlvaSynthFile` (part_000 lines 47-50): the file name starts with
"alva_", case-insensitively. -/
def isAlvaSynthFile (file : JFile) : Bool :=
  file.fileName.toLower.startsWith "alva_"

/-- `getRenderDurationSecondsForMarker` (part_000 lines 52-64). -/
def getRenderDurationSecondsForMarker (timeline : Timeline) (marker : Marker) : ℚ :=
  let tempo := max 1 timeline.tempoBpm
  let beatUnit := (max 1 timeline.beatUnit : ℤ)
  let beatsPerBar := (max 1 timeline.beatsPerBar : ℤ)
  let beatSeconds := (60 / tempo) * (4 / (beatUnit : ℚ))
  let barSeconds := beatSeconds * (beatsPerBar : ℚ)
  if marker.renderBars > 0 then max (1/100) (barSeconds * (marker.renderBars : ℚ))
  else if isAlvaSynthFile marker.pythonFile then max (1/100) barSeconds
  else timeline.durationSeconds

/-- The re-render decision inside `rerenderTimelineMarkersIfNeeded`
(part_000 lines 666-674), parameterized by the floating-point
approximate-equality test `approxEq` standing for
`juce::approximatelyEqual`. -/
def needsRerender (approxEq : ℚ → ℚ → Bool) (timeline : Timeline) (marker : Marker) : Bool :=
  let n0 := false
  let n1 := if marker.lastRenderedPythonPath ≠ marker.pythonFile.fullPath then true else n0
  let n2 := if approxEq marker.lastRenderedTempoBpm timeline.tempoBpm = false then true else n1
  let desiredDuration := getRenderDurationSecondsForMarker timeline marker
  if approxEq marker.lastRenderedDurationSeconds desiredDuration = false then true else n2

/-- `rerenderTimelineMarkersIfNeeded` (part_000 lines 655-686): the list
of markers of the timeline for which a render job is submitted to
`renderer.renderMarker` (each marker is submitted iff its re-render
check fired). -/
def rerenderTimelineMarkersIfNeeded (approxEq : ℚ → ℚ → Bool) (timeline : Timeline) :
    List Marker :=
  timeline.markers.filter (fun m => needsRerender approxEq timeline m)

/-- The interpolation step of `MainComponent::evalAutomation`
(part_000 lines 2815-2823): `a`, `b` are the bracketing points. -/
def automationSegmentValue (a b : AutomationPoint) (timeSeconds : ℚ) : ℚ :=
  let span := b.timeSeconds - a.timeSeconds
  if span ≤ 0 then b.value
  else
    let t := (timeSeconds - a.timeSeconds) / span
    a.value + t * (b.value - a.value)

/-- The `for (i = 1; ...)` search loop of `MainComponent::evalAutomation`:
`a` is `points[i-1]`, the list the remaining `points[i..]`; when the loop
runs off the end the C++ returns `points.back().value`, which is `a`
there. -/
def evalAutomationLoop (timeSeconds : ℚ) (a : AutomationPoint) :
    List AutomationPoint → ℚ
  | [] => a.value
  | b :: rest =>
    if timeSeconds ≤ b.timeSeconds then automationSegmentValue a b timeSeconds
    else evalAutomationLoop timeSeconds b rest

/-- `MainComponent::evalAutomation` (part_000 lines 2803-2826). -/
def evalAutomation (points : List AutomationPoint) (timeSeconds defaultValue : ℚ) : ℚ :=
  match points with
  | [] => defaultValue
  | first :: rest =>
    if timeSeconds ≤ first.timeSeconds then first.value
    else
      let lastPoint := List.getLastD rest first
      if timeSeconds ≥ lastPoint.timeSeconds then lastPoint.value
      else evalAutomationLoop timeSeconds first rest

/-- The per-sample channel maximum `v` of the waveform loops
(part_000 lines 2534-2538 and PythonRenderer.cpp lines 113-118). -/
def samplePeakAt (b : AudioBuffer) (s : ℕ) : ℚ :=
  b.channels.foldl (fun v ch => max v |ch.getD s 0|) 0

/-- The inner `for (s = start; s < end; ...)` accumulation of the
waveform loops: running maximum of the per-sample peaks. -/
def binPeak (b : AudioBuffer) (start stop : ℕ) : ℚ :=
  ((List.range (stop - start)).map (fun j => samplePeakAt b (start + j))).foldl max 0

/-- The bin boundaries of one waveform bin `i` (part_000 lines
2529-2533): `start = i*total/200`, `end = (i+1)*total/200`, pushed to at
least one sample and clamped to `total`. -/
def waveformBinRange (total i : ℕ) : ℕ × ℕ :=
  let start := i * total / 200
  let stop := (i + 1) * total / 200
  let stop := if stop ≤ start then start + 1 else stop
  (start, min stop total)

/-- The waveform summary produced by `MainComponent::recomputeWaveform`
(part_000 lines 2516-2543) and by the identical block in
`PythonRenderer::RenderJob::runJob` (PythonRenderer.cpp lines 97-123):
200 entries, all zero when there is no buffer or no samples. -/
def recomputeWaveformList (ob : Option AudioBuffer) : List ℚ :=
  match ob with
  | none => List.replicate 200 0
  | some b =>
    if b.numSamples ≤ 0 then List.replicate 200 0
    else
      (List.range 200).map (fun i =>
        let r := waveformBinRange b.numSamples i
        jlimit 0 1 (binPeak b r.1 r.2))

/-- `recomputeWaveform(marker)` as a marker update. -/
def recomputeWaveform (m : Marker) : Marker :=
  { m with waveform := recomputeWaveformList m.renderedBuffer }

/-- `buffer->setSize(getNumChannels(), 0, true, true, true)`: same
channel count, zero samples. -/
def emptiedBuffer (b : AudioBuffer) : AudioBuffer :=
  ⟨0, b.channels.map (fun _ => [])⟩

/-- The per-marker body of `MainComponent::cutSelectedMarkersAt`
(part_000 lines 2479-2511): skip markers without a rendered buffer or
with non-positive sample rate; truncate to zero length when the cut
point is at or before the marker start; otherwise cut at the rounded
sample index, clamp the fades to the new duration, and recompute the
waveform. -/
def cutMarkerAt (timeSeconds : ℚ) (m : Marker) : Marker :=
  match m.renderedBuffer with
  | none => m
  | some buf =>
    if m.renderedSampleRate ≤ 0 then m
    else
      let relTime := timeSeconds - m.startTimeSeconds
      if relTime ≤ 0 then
        recomputeWaveform { m with renderedBuffer := some (emptiedBuffer buf) }
      else
        let cutSample : ℤ := ratRound (relTime * m.renderedSampleRate)
        let total : ℤ := (buf.numSamples : ℤ)
        if cutSample ≥ total then m
        else
          let cutSample := jlimitInt 0 total cutSample
          let newBuf : AudioBuffer :=
            ⟨cutSample.toNat, buf.channels.map (fun ch => ch.take cutSample.toNat)⟩
          let duration := (cutSample : ℚ) / m.renderedSampleRate
          recomputeWaveform { m with
            renderedBuffer := some newBuf,
            fadeInSeconds := jlimit 0 duration m.fadeInSeconds,
            fadeOutSeconds := jlimit 0 duration m.fadeOutSeconds }

/-- The auto-selection test of `cutSelectedMarkersAt` (part_000 lines
2463-2475): a marker with rendered audio whose span contains the cut
point. -/
def markerIntersectsCutPoint (timeSeconds : ℚ) (m : Marker) : Bool :=
  match m.renderedBuffer with
  | none => false
  | some buf =>
    if m.renderedSampleRate ≤ 0 then false
    else
      let dur := ((buf.numSamples : ℚ)) / m.renderedSampleRate
      if dur ≤ 0 then false
      else
        decide (m.startTimeSeconds ≤ timeSeconds ∧
                timeSeconds ≤ m.startTimeSeconds + dur)

/-- The target set of `cutSelectedMarkersAt`, by marker position:
selected markers belonging to this timeline or, when none, the markers
intersecting the cut point. -/
def cutTargets (selected : List ℕ) (timeSeconds : ℚ) (tl : Timeline) : List ℕ :=
  let targets := selected.filter (fun i => i < tl.markers.length)
  if targets.isEmpty then
    (List.range tl.markers.length).filter
      (fun i => markerIntersectsCutPoint timeSeconds (tl.markers.getD i {}))
  else targets

/-- `MainComponent::cutSelectedMarkersAt` (part_000 lines 2443-2514),
restricted to its model effect on one timeline (`selected` holds the
positions of the markers selected in the view). -/
def cutSelectedMarkersAt (selected : List ℕ) (timeSeconds : ℚ) (tl : Timeline) : Timeline :=
  let targets := cutTargets selected timeSeconds tl
  if targets.isEmpty then tl
  else
    { tl with markers :=
        tl.markers.mapIdx (fun i m => if i ∈ targets then cutMarkerAt timeSeconds m else m) }

/-- The whole-model effect of `cutSelectedMarkersAt(timelineIndex, t)`:
only the addressed timeline is touched. -/
def cutSelectedMarkersAtModel (timelineIndex : ℕ) (selected : List ℕ) (timeSeconds : ℚ)
    (timelines : List Timeline) : List Timeline :=
  timelines.mapIdx (fun i tl =>
    if i = timelineIndex then cutSelectedMarkersAt selected timeSeconds tl else tl)

/-- `struct MarkerSnapshot` (part_000 lines 1666-1680). -/
structure MarkerSnapshot where
  timelineIndex : ℤ := -1
  startTimeSeconds : ℚ := 0
  renderBars : ℤ := 0
  pythonFile : JFile := JFile.empty
  renderedSampleRate : ℚ := 0
  lastRenderedTempoBpm : ℚ := 0
  lastRenderedDurationSeconds : ℚ := 0
  lastRenderedPythonPath : String := ""
  waveform : List ℚ := []
  fadeInSeconds : ℚ := 0
  fadeOutSeconds : ℚ := 0
  renderedBuffer : Option AudioBuffer := none
deriving DecidableEq, Repr

/-- `struct TimelineSnapshot` (part_000 lines 1682-1700). -/
structure TimelineSnapshot where
  tempoBpm : ℚ := 120
  durationSeconds : ℚ := 8
  beatsPerBar : ℤ := 4
  beatUnit : ℤ := 4
  viewStartSeconds : ℚ := 0
  viewDurationSeconds : ℚ := 8
  volume : ℚ := 1
  pan : ℚ := 0
  nextAutomationId : ℤ := 1
  volumeAutomation : List AutomationPoint := []
  panAutomation : List AutomationPoint := []
  automationExpanded : Bool := false
  zoomY : ℚ := 1
  automationZoomY : ℚ := 1
  repeatMarkers : List ℚ := []
  markers : List MarkerSnapshot := []
deriving DecidableEq, Repr

/-- `struct ModelSnapshot` (part_000 lines 1702-1705). -/
structure ModelSnapshot where
  timelines : List TimelineSnapshot := []
deriving DecidableEq, Repr

/-- The `TimelineModel` contents: the list of owned timelines. -/
structure ModelState where
  timelines : List Timeline := []
deriving DecidableEq, Repr

/-- `MainComponent::makeMarkerSnapshot` (part_000 lines 2314-2339);
the buffer deep copy is a value copy here. -/
def makeMarkerSnapshot (m : Marker) (timelineIndex : ℤ) : MarkerSnapshot :=
  { timelineIndex := timelineIndex
    startTimeSeconds := m.startTimeSeconds
    renderBars := m.renderBars
    pythonFile := m.pythonFile
    renderedSampleRate := m.renderedSampleRate
    lastRenderedTempoBpm := m.lastRenderedTempoBpm
    lastRenderedDurationSeconds := m.lastRenderedDurationSeconds
    lastRenderedPythonPath := m.lastRenderedPythonPath
    waveform := m.waveform
    fadeInSeconds := m.fadeInSeconds
    fadeOutSeconds := m.fadeOutSeconds
    renderedBuffer := m.renderedBuffer }

/-- The per-timeline part of `MainComponent::snapshotModel`
(part_000 lines 2340-2367). -/
def snapshotTimeline (i : ℤ) (t : Timeline) : TimelineSnapshot :=
  { tempoBpm := t.tempoBpm
    durationSeconds := t.durationSeconds
    beatsPerBar := t.beatsPerBar
    beatUnit := t.beatUnit
    viewStartSeconds := t.viewStartSeconds
    viewDurationSeconds := t.viewDurationSeconds
    volume := t.volume
    pan := t.pan
    nextAutomationId := t.nextAutomationId
    volumeAutomation := t.volumeAutomation
    panAutomation := t.panAutomation
    automationExpanded := t.automationExpanded
    zoomY := t.zoomY
    automationZoomY := t.automationZoomY
    repeatMarkers := t.repeatMarkers
    markers := t.markers.map (fun m => makeMarkerSnapshot m i) }

/-- `MainComponent::snapshotModel` (part_000 lines 2340-2367). -/
def snapshotModel (model : ModelState) : ModelSnapshot :=
  ⟨model.timelines.mapIdx (fun i t => snapshotTimeline (i : ℤ) t)⟩

/-- The marker rebuild inside `MainComponent::restoreModel`
(part_000 lines 2391-2412): `new Marker()` then every snapshotted field
assigned; `isDragging` and `renderedWavFile` stay at their defaults. -/
def restoreMarker (ms : MarkerSnapshot) : Marker :=
  { startTimeSeconds := ms.startTimeSeconds
    isDragging := false
    renderBars := ms.renderBars
    lastRenderedTempoBpm := ms.lastRenderedTempoBpm
    lastRenderedDurationSeconds := ms.lastRenderedDurationSeconds
    lastRenderedPythonPath := ms.lastRenderedPythonPath
    waveform := ms.waveform
    fadeInSeconds := ms.fadeInSeconds
    fadeOutSeconds := ms.fadeOutSeconds
    pythonFile := ms.pythonFile
    renderedWavFile := JFile.empty
    renderedBuffer := ms.renderedBuffer
    renderedSampleRate := ms.renderedSampleRate }

/-- The timeline rebuild inside `MainComponent::restoreModel`
(part_000 lines 2369-2389): `addTimeline` then every snapshotted field
assigned, markers re-added in order. -/
def restoreTimeline (ts : TimelineSnapshot) : Timeline :=
  { tempoBpm := ts.tempoBpm
    durationSeconds := ts.durationSeconds
    beatsPerBar := ts.beatsPerBar
    beatUnit := ts.beatUnit
    viewStartSeconds := ts.viewStartSeconds
    viewDurationSeconds := ts.viewDurationSeconds
    volume := ts.volume
    pan := ts.pan
    nextAutomationId := ts.nextAutomationId
    volumeAutomation := ts.volumeAutomation
    panAutomation := ts.panAutomation
    automationExpanded := ts.automationExpanded
    zoomY := ts.zoomY
    automationZoomY := ts.automationZoomY
    repeatMarkers := ts.repeatMarkers
    markers := ts.markers.map restoreMarker }

/-- `MainComponent::restoreModel` (part_000 lines 2369-2421), restricted
to its model effect (the view-selection and repaint calls are UI). -/
def restoreModel (snap : ModelSnapshot) : ModelState :=
  ⟨snap.timelines.map restoreTimeline⟩

/-- The undo-relevant state of `MainComponent`: the live model, the
`undoSnapshots` vector and the `isRestoring` guard. -/
structure UndoState where
  model : ModelState := {}
  undoSnapshots : List ModelSnapshot := []
  isRestoring : Bool := false
deriving DecidableEq, Repr

/-- `MainComponent::pushUndoState` (part_000 lines 2422-2430): no-op
while restoring; otherwise append a snapshot and erase the oldest entry
when the stack exceeds 10. -/
def pushUndoState (st : UndoState) : UndoState :=
  if st.isRestoring then st
  else
    let stack := st.undoSnapshots ++ [snapshotModel st.model]
    { st with undoSnapshots := if stack.length > 10 then stack.drop 1 else stack }

/-- `MainComponent::undoSnapshot` (part_000 lines 2432-2441): no-op on an
empty stack; otherwise pop the most recent snapshot and restore it. -/
def undoSnapshot (st : UndoState) : UndoState :=
  if st.undoSnapshots.isEmpty then st
  else
    { model := restoreModel (st.undoSnapshots.getLastD {})
      undoSnapshots := st.undoSnapshots.dropLast
      isRestoring := false }

/-- Reset of the two Marker fields that `makeMarkerSnapshot` does not
record (`isDragging`, `renderedWavFile`) to their `Marker()` defaults. -/
def eraseTransientMarker (m : Marker) : Marker :=
  { m with isDragging := false, renderedWavFile := JFile.empty }

/-- `eraseTransientMarker` applied to every marker of the model. -/
def eraseTransientModel (model : ModelState) : ModelState :=
  ⟨model.timelines.map (fun t => { t with markers := t.markers.map eraseTransientMarker })⟩

/-- One queued `PythonRenderer::RenderJob` (PythonRenderer.cpp lines
26-38): the marker it targets (by position) and the render
parameters. -/
structure RenderJobModel where
  markerId : ℕ
  sampleRate : ℚ
  durationSeconds : ℚ
  tempoBpm : ℚ
deriving DecidableEq, Repr

/-- The `PythonRenderer` with its `juce::ThreadPool pool` : thread count
and the queue of submitted jobs. -/
structure PythonRendererModel where
  numThreads : ℕ
  jobs : List RenderJobModel
deriving DecidableEq, Repr

/-- `PythonRenderer::PythonRenderer()` (PythonRenderer.cpp lines 7-10):
`pool(2)`, empty queue. -/
def mkPythonRenderer : PythonRendererModel := ⟨2, []⟩

/-- `PythonRenderer::renderMarker` (PythonRenderer.cpp lines 17-24):
unconditionally `pool.addJob(new RenderJob(...))`. -/
def renderMarker (r : PythonRendererModel) (markerId : ℕ)
    (sampleRate durationSeconds tempoBpm : ℚ) : PythonRendererModel :=
  { r with jobs := r.jobs ++ [⟨markerId, sampleRate, durationSeconds, tempoBpm⟩] }

/-- The environment a `RenderJob::runJob` run sees: the outcomes of the
file-system and process steps, and what the audio reader would
deliver. -/
structure RenderEnv where
  pythonFileExistsAsFile : Bool
  tempWavFile : JFile
  processStarted : Bool
  wavFileProduced : Bool
  readerCreated : Bool
  readerLengthInSamples : ℕ
  readerSampleRate : ℚ
  readerData : List (List ℚ)
deriving DecidableEq, Repr

/-- `PythonRenderer::RenderJob::runJob` (PythonRenderer.cpp lines
40-129): returns the marker as left by the job together with the
`(success, message)` pair passed to the callback. -/
def runJob (env : RenderEnv) (sampleRate durationSeconds tempoBpm : ℚ) (m : Marker) :
    Marker × Bool × String :=
  if env.pythonFileExistsAsFile = false then (m, false, "Python file does not exist")
  else
    let m1 := { m with renderedWavFile := env.tempWavFile }
    if env.processStarted = false then (m1, false, "Failed to start python process")
    else if env.wavFileProduced = false then (m1, false, "Python did not produce a WAV file")
    else if env.readerCreated = false then (m1, false, "Failed to read rendered WAV")
    else
      let buffer : AudioBuffer := ⟨env.readerLengthInSamples, env.readerData⟩
      let m2 := { m1 with
        renderedSampleRate := env.readerSampleRate
        renderedBuffer := some buffer
        lastRenderedTempoBpm := tempoBpm
        lastRenderedDurationSeconds := durationSeconds
        lastRenderedPythonPath := m1.pythonFile.fullPath }
      ({ m2 with waveform := recomputeWaveformList m2.renderedBuffer }, true, "Render complete")

/-- Modelled from the claim's words (claim C8 / spec section 4.2), for
comparison with the code's `recomputeWaveformList`: partition the buffer
into 200 equal-width bins by sample count — width `⌈total/200⌉` — with
only the last non-degenerate bin possibly shorter; each bin's value is
the maximum absolute sample amplitude across all channels within that
bin, clamped to `[0, 1]` (an empty bin holds 0). -/
def equalWidthWaveformList (b : AudioBuffer) : List ℚ :=
  let w := (b.numSamples + 199) / 200
  (List.range 200).map (fun i => jlimit 0 1 (binPeak b (i * w) (min ((i + 1) * w) b.numSamples)))

/-! ### Arithmetic facts about the embedded C library functions -/

theorem ratTrunc_of_nonneg {x : ℚ} (h : 0 ≤ x) : ratTrunc x = ⌊x⌋ := by
  unfold ratTrunc
  exact if_pos h

theorem fmodQ_eq_sub_floor {x y : ℚ} (hy : 0 < y) (hx : 0 ≤ x) :
    fmodQ x y = x - y * (⌊x / y⌋ : ℚ) := by
  unfold fmodQ
  rw [ratTrunc_of_nonneg (div_nonneg hx hy.le)]

theorem fmodQ_nonneg {x y : ℚ} (hy : 0 < y) (hx : 0 ≤ x) : 0 ≤ fmodQ x y := by
  rw [fmodQ_eq_sub_floor hy hx]
  have h1 : ((⌊x / y⌋ : ℚ)) ≤ x / y := Int.floor_le _
  have h2 : y * ((⌊x / y⌋ : ℚ)) ≤ y * (x / y) := mul_le_mul_of_nonneg_left h1 hy.le
  have h3 : y * (x / y) = x := by field_simp
  linarith

theorem fmodQ_lt {x y : ℚ} (hy : 0 < y) (hx : 0 ≤ x) : fmodQ x y < y := by
  rw [fmodQ_eq_sub_floor hy hx]
  have h1 : x / y < ((⌊x / y⌋ : ℚ)) + 1 := Int.lt_floor_add_one _
  have h2 : y * (x / y) < y * (((⌊x / y⌋ : ℚ)) + 1) := by
    exact mul_lt_mul_of_pos_left h1 hy
  have h3 : y * (x / y) = x := by field_simp
  nlinarith

theorem fmodQ_bounds {x y : ℚ} (hy : 0 < y) : -y < fmodQ x y ∧ fmodQ x y < y := by
  unfold fmodQ ratTrunc
  split
  · constructor
    · have h1 : ((⌊x / y⌋ : ℚ)) ≤ x / y := Int.floor_le _
      have h2 : y * ((⌊x / y⌋ : ℚ)) ≤ y * (x / y) := mul_le_mul_of_nonneg_left h1 hy.le
      have h3 : y * (x / y) = x := by field_simp
      nlinarith
    · have h1 : x / y < ((⌊x / y⌋ : ℚ)) + 1 := Int.lt_floor_add_one _
      have h2 : y * (x / y) < y * (((⌊x / y⌋ : ℚ)) + 1) := mul_lt_mul_of_pos_left h1 hy
      have h3 : y * (x / y) = x := by field_simp
      nlinarith
  · constructor
    · have h1 : ((⌈x / y⌉ : ℚ)) < x / y + 1 := Int.ceil_lt_add_one _
      have h2 : y * ((⌈x / y⌉ : ℚ)) < y * (x / y + 1) := mul_lt_mul_of_pos_left h1 hy
      have h3 : y * (x / y) = x := by field_simp
      nlinarith
    · have h1 : x / y ≤ ((⌈x / y⌉ : ℚ)) := Int.le_ceil _
      have h2 : y * (x / y) ≤ y * ((⌈x / y⌉ : ℚ)) := mul_le_mul_of_nonneg_left h1 hy.le
      have h3 : y * (x / y) = x := by field_simp
      nlinarith

theorem fmodNorm_eq_sub_floor {x y : ℚ} (hy : 0 < y) :
    (if fmodQ x y < 0 then fmodQ x y + y else fmodQ x y) = x - y * (⌊x / y⌋ : ℚ) := by
  have h3 : y * (x / y) = x := by field_simp
  by_cases hz : 0 ≤ x / y
  · have hx : 0 ≤ x := by nlinarith
    rw [if_neg (not_lt.mpr (fmodQ_nonneg hy hx)), fmodQ_eq_sub_floor hy hx]
  · push_neg at hz
    have htr : ratTrunc (x / y) = ⌈x / y⌉ := by
      unfold ratTrunc
      exact if_neg (not_le.mpr hz)
    have hfe : Int.fract (x / y) = x / y - ((⌊x / y⌋ : ℚ)) := rfl
    by_cases hfr : Int.fract (x / y) = 0
    · have hint : ((⌊x / y⌋ : ℚ)) = x / y := by
        rw [hfe] at hfr
        linarith
      have hceil : (⌈x / y⌉ : ℤ) = ⌊x / y⌋ := by
        rw [← hint]
        exact Int.ceil_intCast _
      have hval : fmodQ x y = x - y * ((⌊x / y⌋ : ℚ)) := by
        unfold fmodQ
        rw [htr, hceil]
      have hzero : fmodQ x y = 0 := by
        rw [hval, hint, h3]
        ring
      rw [hzero] at hval ⊢
      rw [if_neg (by norm_num)]
      exact hval
    · have hceil : (⌈x / y⌉ : ℤ) = ⌊x / y⌋ + 1 := by
        refine le_antisymm (Int.ceil_le_floor_add_one _) ?_
        have hne : (⌊x / y⌋ : ℤ) ≠ ⌈x / y⌉ := by
          intro he
          apply hfr
          have hc : ((⌊x / y⌋ : ℚ)) = ((⌈x / y⌉ : ℚ)) := by exact_mod_cast he
          have h1 : ((⌊x / y⌋ : ℚ)) ≤ x / y := Int.floor_le _
          have h2 : x / y ≤ ((⌈x / y⌉ : ℚ)) := Int.le_ceil _
          rw [hfe]
          linarith
        have hlt : ⌊x / y⌋ < ⌈x / y⌉ := lt_of_le_of_ne (Int.floor_le_ceil _) hne
        omega
      have hval : fmodQ x y = x - y * ((⌊x / y⌋ : ℚ)) - y := by
        unfold fmodQ
        rw [htr, hceil]
        push_cast
        ring
      have hfr1 : 0 < Int.fract (x / y) := lt_of_le_of_ne (Int.fract_nonneg _) (Ne.symm hfr)
      have hfr2 : Int.fract (x / y) < 1 := Int.fract_lt_one _
      have hxly : x - y * ((⌊x / y⌋ : ℚ)) = y * Int.fract (x / y) := by
        rw [hfe, mul_sub, h3]
      have hneg : fmodQ x y < 0 := by
        rw [hval, hxly]
        nlinarith
      rw [if_pos hneg, hval]
      ring

theorem fmodQ_add_self_of_bounds {u y : ℚ} (hy : 0 < y) (h1 : -y < u) (h2 : u < y) :
    fmodQ (u + y) y = if u < 0 then u + y else u := by
  by_cases hu : u < 0
  · rw [if_pos hu]
    have hq : 0 < (u + y) / y := div_pos (by linarith) hy
    unfold fmodQ
    rw [ratTrunc_of_nonneg hq.le]
    have hfl : ⌊(u + y) / y⌋ = 0 := by
      rw [Int.floor_eq_zero_iff]
      constructor
      · exact hq.le
      · rw [div_lt_one hy]
        linarith
    rw [hfl]
    push_cast
    ring
  · push_neg at hu
    rw [if_neg (not_lt.mpr hu)]
    unfold fmodQ
    have hq : (0:ℚ) ≤ (u + y) / y := div_nonneg (by linarith) hy.le
    rw [ratTrunc_of_nonneg hq]
    have hfl : ⌊(u + y) / y⌋ = 1 := by
      rw [Int.floor_eq_iff]
      constructor
      · push_cast
        rw [le_div_iff₀ hy]
        linarith
      · push_cast
        rw [div_lt_iff₀ hy]
        linarith
    rw [hfl]
    push_cast
    ring

theorem jlimit_eq_max_min {lo hi v : ℚ} (h : lo ≤ hi) :
    jlimit lo hi v = max lo (min hi v) := by
  unfold jlimit
  rw [max_def, min_def]
  split_ifs <;> linarith

/-! ### Claim C1 -/

/-- Claim C1: on a timeline with positive duration and exactly one repeat
marker `m`, whenever `m > 0` and `t ≥ m` the looped local time equals
`((t mod m) + m) mod m` (`mod` being C `fmod`), so time wraps within
`[0, m)`; otherwise it is `t` clamped to `[0, durationSeconds]`; and the
four concrete values of the spec for `m = 3` on a duration-10 timeline
hold. -/
theorem getLoopedLocalTime_single_repeat_marker (tl : Timeline) (m t : ℚ)
    (hD : 0 < tl.durationSeconds) (hm : tl.repeatMarkers = [m]) :
    (0 < m → m ≤ t → getLoopedLocalTime t tl = fmodQ (fmodQ t m + m) m) ∧
    (¬ (0 < m ∧ m ≤ t) → getLoopedLocalTime t tl = max 0 (min tl.durationSeconds t)) ∧
    getLoopedLocalTime 2 { durationSeconds := 10, repeatMarkers := [3] } = 2 ∧
    getLoopedLocalTime 3 { durationSeconds := 10, repeatMarkers := [3] } = 0 ∧
    getLoopedLocalTime (9/2) { durationSeconds := 10, repeatMarkers := [3] } = 3/2 ∧
    getLoopedLocalTime 9 { durationSeconds := 10, repeatMarkers := [3] } = 0 := by
  have hcode : getLoopedLocalTime t tl =
      if m > 0 ∧ t ≥ m then
        (if fmodQ t m < 0 then fmodQ t m + m else fmodQ t m)
      else jlimit 0 tl.durationSeconds t := by
    unfold getLoopedLocalTime
    rw [hm, if_neg (not_le.mpr hD)]
    norm_num
  refine ⟨?_, ?_, by decide, by decide, by decide, by decide⟩
  · intro hm0 hmt
    have ht0 : (0:ℚ) ≤ t := le_trans hm0.le hmt
    have hnn : 0 ≤ fmodQ t m := fmodQ_nonneg hm0 ht0
    have hlt : fmodQ t m < m := fmodQ_lt hm0 ht0
    rw [hcode, if_pos ⟨hm0, hmt⟩, if_neg (not_lt.mpr hnn)]
    rw [fmodQ_add_self_of_bounds hm0 (by linarith) hlt, if_neg (not_lt.mpr hnn)]
  · intro hcond
    rw [hcode, if_neg hcond, jlimit_eq_max_min hD.le]

/-- Witness for claim C1 at `m = 3`, `t = 9/2` on the duration-10
timeline. -/
theorem getLoopedLocalTime_single_repeat_marker_witness :
    getLoopedLocalTime (9/2) { durationSeconds := 10, repeatMarkers := [3] } =
      fmodQ (fmodQ (9/2) 3 + 3) 3 :=
  (getLoopedLocalTime_single_repeat_marker
      { durationSeconds := 10, repeatMarkers := [3] } 3 (9/2)
      (by decide) rfl).1 (by decide) (by decide)

/-! ### Claim C2 -/

/-- Claim C2: on a timeline with positive duration and no repeat markers
the looped local time is periodic with period `durationSeconds` (shifting
the query time by any integer multiple of the duration leaves it
unchanged), and it equals `((t mod durationSeconds) + durationSeconds)
mod durationSeconds` (`mod` being C `fmod`). -/
theorem getLoopedLocalTime_no_repeat_markers (tl : Timeline) (t : ℚ) (k : ℤ)
    (hD : 0 < tl.durationSeconds) (h0 : tl.repeatMarkers = []) :
    getLoopedLocalTime (t + k * tl.durationSeconds) tl = getLoopedLocalTime t tl ∧
    getLoopedLocalTime t tl =
      fmodQ (fmodQ t tl.durationSeconds + tl.durationSeconds) tl.durationSeconds := by
  have hcode : ∀ s : ℚ, getLoopedLocalTime s tl =
      if fmodQ s tl.durationSeconds < 0 then fmodQ s tl.durationSeconds + tl.durationSeconds
      else fmodQ s tl.durationSeconds := by
    intro s
    unfold getLoopedLocalTime
    rw [h0, if_neg (not_le.mpr hD)]
    norm_num
  constructor
  · rw [hcode, hcode, fmodNorm_eq_sub_floor hD, fmodNorm_eq_sub_floor hD]
    have hq : (t + (k:ℚ) * tl.durationSeconds) / tl.durationSeconds =
        t / tl.durationSeconds + (k:ℚ) := by
      field_simp
    rw [hq]
    have hfl : ⌊t / tl.durationSeconds + (k:ℚ)⌋ = ⌊t / tl.durationSeconds⌋ + k :=
      Int.floor_add_int _ _
    rw [hfl]
    push_cast
    ring
  · rw [hcode]
    have hb := fmodQ_bounds (x := t) hD
    rw [fmodQ_add_self_of_bounds hD hb.1 hb.2]

/-- Witness for claim C2 at `t = 7`, `k = 2` on a duration-10 timeline. -/
theorem getLoopedLocalTime_no_repeat_markers_witness :
    getLoopedLocalTime (7 + ((2:ℤ):ℚ) * ({ durationSeconds := 10 } : Timeline).durationSeconds)
        { durationSeconds := 10 } =
      getLoopedLocalTime 7 { durationSeconds := 10 } ∧
    getLoopedLocalTime 7 { durationSeconds := 10 } = fmodQ (fmodQ 7 10 + 10) 10 :=
  getLoopedLocalTime_no_repeat_markers { durationSeconds := 10 } 7 2 (by decide) rfl

/-! ### Claim C3 -/

/-- Helper: inside the search loop of `evalAutomation`, a sorted lane
with a bracketing pair `points[i].time < t ≤ points[i+1].time` yields the
interpolation between exactly that pair. -/
theorem evalAutomationLoop_bracket (t : ℚ) (a : AutomationPoint) (l : List AutomationPoint)
    (hsort : (a :: l).Pairwise (fun p q => p.timeSeconds ≤ q.timeSeconds)) :
    ∀ i (hi : i + 1 < (a :: l).length),
      ((a :: l).get ⟨i, by omega⟩).timeSeconds < t →
      t ≤ ((a :: l).get ⟨i + 1, hi⟩).timeSeconds →
      evalAutomationLoop t a l =
        automationSegmentValue ((a :: l).get ⟨i, by omega⟩) ((a :: l).get ⟨i + 1, hi⟩) t := by
  induction l generalizing a with
  | nil =>
    intro i hi
    simp at hi
  | cons b rest ih =>
    intro i hi hlt hle
    cases i with
    | zero =>
      simp only [List.get] at hlt hle ⊢
      rw [evalAutomationLoop, if_pos hle]
    | succ j =>
      have hj : j + 1 < (b :: rest).length := by
        simpa using hi
      have hmono : b.timeSeconds ≤ ((b :: rest).get ⟨j, by omega⟩).timeSeconds := by
        rcases Nat.eq_zero_or_pos j with hj0 | hjpos
        · subst hj0
          simp
        · have := (List.pairwise_iff_get.mp (List.Pairwise.sublist (List.sublist_cons_self a (b :: rest)) hsort))
            ⟨0, by omega⟩ ⟨j, by omega⟩ (by simpa using hjpos)
          simpa using this
      have hblt : b.timeSeconds < t := by
        have : ((b :: rest).get ⟨j, by omega⟩).timeSeconds < t := by
          simpa using hlt
        linarith
      rw [evalAutomationLoop, if_neg (not_le.mpr hblt)]
      have := ih b (hsort.sublist (List.sublist_cons_self a (b :: rest))) j hj
        (by simpa using hlt) (by simpa using hle)
      simpa using this

/-- Claim C3: `evalAutomation` on a lane sorted ascending by time
returns the default on an empty lane; the first point's value at or
before the first point; the last point's value at or after the last
point (the earlier cases taking precedence, as in the spec's ordered
case list); otherwise the linear interpolation by time between the
bracketing points; a zero-length span returns the right point's value;
and `evalAutomation([(0,0),(4,1)], 2, d) = 1/2`. -/
theorem evalAutomation_spec (points : List AutomationPoint) (t d : ℚ)
    (hsorted : points.Pairwise (fun a b => a.timeSeconds ≤ b.timeSeconds)) :
    (points = [] → evalAutomation points t d = d) ∧
    (∀ first rest, points = first :: rest →
       (t ≤ first.timeSeconds → evalAutomation points t d = first.value) ∧
       (first.timeSeconds < t → (List.getLastD rest first).timeSeconds ≤ t →
          evalAutomation points t d = (List.getLastD rest first).value) ∧
       (first.timeSeconds < t → t < (List.getLastD rest first).timeSeconds →
          ∀ i (hi : i + 1 < points.length),
            (points.get ⟨i, by omega⟩).timeSeconds < t →
            t ≤ (points.get ⟨i + 1, hi⟩).timeSeconds →
            evalAutomation points t d =
              (1 - (t - (points.get ⟨i, by omega⟩).timeSeconds) /
                    ((points.get ⟨i + 1, hi⟩).timeSeconds -
                      (points.get ⟨i, by omega⟩).timeSeconds)) *
                  (points.get ⟨i, by omega⟩).value +
                (t - (points.get ⟨i, by omega⟩).timeSeconds) /
                    ((points.get ⟨i + 1, hi⟩).timeSeconds -
                      (points.get ⟨i, by omega⟩).timeSeconds) *
                  (points.get ⟨i + 1, hi⟩).value)) ∧
    (∀ a b : AutomationPoint, b.timeSeconds - a.timeSeconds ≤ 0 →
       automationSegmentValue a b t = b.value) ∧
    evalAutomation [{ timeSeconds := 0, value := 0 }, { timeSeconds := 4, value := 1 }] 2 d = 1/2 := by
  refine ⟨?_, ?_, ?_, ?_⟩
  · intro h
    subst h
    rfl
  · intro first rest h
    subst h
    refine ⟨?_, ?_, ?_⟩
    · intro hle
      simp only [evalAutomation]
      rw [if_pos hle]
    · intro hgt hlast
      simp only [evalAutomation]
      rw [if_neg (not_le.mpr hgt), if_pos hlast]
    · intro hgt hlast i hi hia hib
      simp only [evalAutomation]
      rw [if_neg (not_le.mpr hgt), if_neg (not_le.mpr hlast)]
      rw [evalAutomationLoop_bracket t first rest hsorted i hi hia hib]
      have hspan : 0 < ((first :: rest).get ⟨i + 1, hi⟩).timeSeconds -
          ((first :: rest).get ⟨i, by omega⟩).timeSeconds := by linarith
      simp only [automationSegmentValue]
      rw [if_neg (not_le.mpr hspan)]
      ring
  · intro a b h
    simp only [automationSegmentValue]
    rw [if_pos h]
  · norm_num [evalAutomation, evalAutomationLoop, automationSegmentValue, List.getLastD]

/-- Witness for claim C3: the spec's concrete interpolation example with
default value 5. -/
theorem evalAutomation_spec_witness :
    evalAutomation [{ timeSeconds := 0, value := 0 }, { timeSeconds := 4, value := 1 }] 2 5 = 1/2 :=
  (evalAutomation_spec
      [{ timeSeconds := 0, value := 0 }, { timeSeconds := 4, value := 1 }] 2 5
      (by decide)).2.2.2

/-! ### Claim C4 -/

theorem jlimitInt_eq_self {lo hi v : ℤ} (h1 : lo ≤ v) (h2 : v ≤ hi) : jlimitInt lo hi v = v := by
  unfold jlimitInt
  rw [if_neg (not_lt.mpr h1), if_neg (not_lt.mpr h2)]

theorem ratRound_nonneg {x : ℚ} (h : 0 ≤ x) : 0 ≤ ratRound x := by
  unfold ratRound
  rw [if_pos h]
  have : (0:ℤ) ≤ ⌊x + 1/2⌋ := by
    apply Int.floor_nonneg.mpr
    linarith
  exact this

theorem recomputeWaveform_renderedBuffer (m : Marker) :
    (recomputeWaveform m).renderedBuffer = m.renderedBuffer := rfl

theorem recomputeWaveform_fadeInSeconds (m : Marker) :
    (recomputeWaveform m).fadeInSeconds = m.fadeInSeconds := rfl

theorem recomputeWaveform_fadeOutSeconds (m : Marker) :
    (recomputeWaveform m).fadeOutSeconds = m.fadeOutSeconds := rfl

theorem recomputeWaveform_waveform (m : Marker) :
    (recomputeWaveform m).waveform = recomputeWaveformList m.renderedBuffer := rfl

/-- Claim C4: cutting a marker with a present buffer and positive sample
rate truncates the buffer to zero length (keeping the marker and its
channel count, waveform recomputed) when the cut time is at or before
the marker start; otherwise, with `cutSample = round((t - start) * rate)`
clamped to `[0, total]`, the cut is a no-op when `cutSample ≥ total`, and
otherwise the buffer is replaced by samples `[0, cutSample)` of every
channel, both fades are clamped to the new duration, and the waveform
summary is recomputed from the new buffer. -/
theorem cutMarkerAt_spec (m : Marker) (buf : AudioBuffer) (ts : ℚ)
    (hbuf : m.renderedBuffer = some buf) (hsr : 0 < m.renderedSampleRate) :
    (ts ≤ m.startTimeSeconds →
       ∃ b2, (cutMarkerAt ts m).renderedBuffer = some b2 ∧ b2.numSamples = 0 ∧
         b2.channels.length = buf.channels.length ∧
         (cutMarkerAt ts m).waveform = recomputeWaveformList (some b2)) ∧
    (m.startTimeSeconds < ts →
       (((buf.numSamples : ℤ)) ≤
           min ((buf.numSamples : ℤ)) (max 0 (ratRound ((ts - m.startTimeSeconds) * m.renderedSampleRate))) →
         cutMarkerAt ts m = m) ∧
       (min ((buf.numSamples : ℤ)) (max 0 (ratRound ((ts - m.startTimeSeconds) * m.renderedSampleRate))) <
           ((buf.numSamples : ℤ)) →
         (cutMarkerAt ts m).renderedBuffer =
           some ⟨(min ((buf.numSamples : ℤ))
                    (max 0 (ratRound ((ts - m.startTimeSeconds) * m.renderedSampleRate)))).toNat,
                 buf.channels.map (fun ch => ch.take
                   (min ((buf.numSamples : ℤ))
                      (max 0 (ratRound ((ts - m.startTimeSeconds) * m.renderedSampleRate)))).toNat)⟩ ∧
         (cutMarkerAt ts m).fadeInSeconds =
           max 0 (min
             (((min ((buf.numSamples : ℤ))
                  (max 0 (ratRound ((ts - m.startTimeSeconds) * m.renderedSampleRate))) : ℚ)) /
               m.renderedSampleRate) m.fadeInSeconds) ∧
         (cutMarkerAt ts m).fadeOutSeconds =
           max 0 (min
             (((min ((buf.numSamples : ℤ))
                  (max 0 (ratRound ((ts - m.startTimeSeconds) * m.renderedSampleRate))) : ℚ)) /
               m.renderedSampleRate) m.fadeOutSeconds) ∧
         (cutMarkerAt ts m).waveform =
           recomputeWaveformList ((cutMarkerAt ts m).renderedBuffer))) := by
  have hcode : cutMarkerAt ts m =
      (let relTime := ts - m.startTimeSeconds
       if relTime ≤ 0 then
         recomputeWaveform { m with renderedBuffer := some (emptiedBuffer buf) }
       else
         let cutSample : ℤ := ratRound (relTime * m.renderedSampleRate)
         let total : ℤ := (buf.numSamples : ℤ)
         if cutSample ≥ total then m
         else
           let cutSample := jlimitInt 0 total cutSample
           let newBuf : AudioBuffer :=
             ⟨cutSample.toNat, buf.channels.map (fun ch => ch.take cutSample.toNat)⟩
           let duration := (cutSample : ℚ) / m.renderedSampleRate
           recomputeWaveform { m with
             renderedBuffer := some newBuf,
             fadeInSeconds := jlimit 0 duration m.fadeInSeconds,
             fadeOutSeconds := jlimit 0 duration m.fadeOutSeconds }) := by
    unfold cutMarkerAt
    rw [hbuf]
    simp only [if_neg (not_le.mpr hsr)]
  constructor
  · intro hle
    rw [hcode]
    simp only []
    rw [if_pos (by linarith : ts - m.startTimeSeconds ≤ 0)]
    exact ⟨emptiedBuffer buf, rfl, rfl, by simp [emptiedBuffer], rfl⟩
  · intro hgt
    have hrel : ¬ (ts - m.startTimeSeconds ≤ 0) := by linarith
    have hraw0 : 0 ≤ ratRound ((ts - m.startTimeSeconds) * m.renderedSampleRate) :=
      ratRound_nonneg (by nlinarith)
    set raw := ratRound ((ts - m.startTimeSeconds) * m.renderedSampleRate) with hraw
    have hmax : max 0 raw = raw := max_eq_right hraw0
    constructor
    · intro hge
      rw [hmax] at hge
      have hge2 : raw ≥ (buf.numSamples : ℤ) := by omega
      rw [hcode]
      simp only []
      rw [if_neg hrel, if_pos hge2]
    · intro hlt
      rw [hmax] at hlt ⊢
      have hlt2 : ¬ (raw ≥ (buf.numSamples : ℤ)) := by omega
      have hclamp : jlimitInt 0 ((buf.numSamples : ℤ)) raw = raw :=
        jlimitInt_eq_self hraw0 (by omega)
      have hminraw : min ((buf.numSamples : ℤ)) raw = raw := min_eq_right (by omega)
      rw [hminraw]
      have hres : cutMarkerAt ts m =
          recomputeWaveform { m with
            renderedBuffer := some (⟨raw.toNat,
              buf.channels.map (fun ch => ch.take raw.toNat)⟩ : AudioBuffer),
            fadeInSeconds := jlimit 0 ((raw : ℚ) / m.renderedSampleRate) m.fadeInSeconds,
            fadeOutSeconds := jlimit 0 ((raw : ℚ) / m.renderedSampleRate) m.fadeOutSeconds } := by
        rw [hcode]
        simp only []
        rw [if_neg hrel, if_neg hlt2, hclamp]
      have hdur0 : 0 ≤ (raw : ℚ) / m.renderedSampleRate := by positivity
      have hratQ : (((buf.numSamples : ℤ) : ℚ)) ⊓ (0 ⊔ ((raw : ℚ))) = ((raw : ℚ)) := by
        rw [max_eq_right (by exact_mod_cast hraw0)]
        exact min_eq_right (by exact_mod_cast le_of_lt (lt_of_not_ge hlt2))
      refine ⟨?_, ?_, ?_, ?_⟩
      · rw [hres, recomputeWaveform_renderedBuffer]
      · rw [hres, recomputeWaveform_fadeInSeconds]
        simp only []
        rw [jlimit_eq_max_min hdur0, hratQ]
      · rw [hres, recomputeWaveform_fadeOutSeconds]
        simp only []
        rw [jlimit_eq_max_min hdur0, hratQ]
      · rw [hres, recomputeWaveform_waveform, recomputeWaveform_renderedBuffer]

/-- Witness for claim C4: a 4-sample single-channel buffer at 2 samples
per second starting at second 1, cut at second 2, keeps samples `[0, 2)`
and clamps the 3-second fade-in to the new 1-second duration. -/
theorem cutMarkerAt_spec_witness :
    (cutMarkerAt 2 ({ startTimeSeconds := 1, renderedSampleRate := 2, fadeInSeconds := 3,
                      fadeOutSeconds := 1, renderedBuffer := some ⟨4, [[1, 2, 3, 4]]⟩ } : Marker)).renderedBuffer =
      some ⟨2, [[1, 2]]⟩ ∧
    (cutMarkerAt 2 ({ startTimeSeconds := 1, renderedSampleRate := 2, fadeInSeconds := 3,
                      fadeOutSeconds := 1, renderedBuffer := some ⟨4, [[1, 2, 3, 4]]⟩ } : Marker)).fadeInSeconds = 1 := by
  have h := (cutMarkerAt_spec
      { startTimeSeconds := 1, renderedSampleRate := 2, fadeInSeconds := 3,
          fadeOutSeconds := 1, renderedBuffer := some ⟨4, [[1, 2, 3, 4]]⟩ }
      ⟨4, [[1, 2, 3, 4]]⟩ 2 rfl (by decide)).2 (by decide)
  have h2 := h.2 (by decide)
  refine ⟨?_, ?_⟩
  · rw [h2.1]
    decide
  · rw [h2.2.1]
    decide

/-! ### Claim C10 -/

/-- Claim C10: the cut operation changes nothing but the buffer, the
fades and the waveform of the markers it touches: every other Marker
field (start time, render bars, source file, sample rate, cache stamps)
keeps its prior value, the cut timeline keeps its marker count (each
position either untouched or cut in place) and its own fields, and every
other timeline of the model is untouched. -/
theorem cutSelectedMarkersAt_frame (selected : List ℕ) (ts : ℚ) (tls : List Timeline)
    (tlIdx : ℕ) :
    (∀ m : Marker,
       (cutMarkerAt ts m).startTimeSeconds = m.startTimeSeconds ∧
       (cutMarkerAt ts m).renderBars = m.renderBars ∧
       (cutMarkerAt ts m).pythonFile = m.pythonFile ∧
       (cutMarkerAt ts m).renderedSampleRate = m.renderedSampleRate ∧
       (cutMarkerAt ts m).lastRenderedPythonPath = m.lastRenderedPythonPath ∧
       (cutMarkerAt ts m).lastRenderedTempoBpm = m.lastRenderedTempoBpm ∧
       (cutMarkerAt ts m).lastRenderedDurationSeconds = m.lastRenderedDurationSeconds) ∧
    (∀ tl : Timeline,
       (cutSelectedMarkersAt selected ts tl).markers.length = tl.markers.length ∧
       (cutSelectedMarkersAt selected ts tl).tempoBpm = tl.tempoBpm ∧
       (cutSelectedMarkersAt selected ts tl).durationSeconds = tl.durationSeconds ∧
       ∀ i, i < tl.markers.length →
         (cutSelectedMarkersAt selected ts tl).markers.getD i {} = tl.markers.getD i {} ∨
         (cutSelectedMarkersAt selected ts tl).markers.getD i {} =
           cutMarkerAt ts (tl.markers.getD i {})) ∧
    ((cutSelectedMarkersAtModel tlIdx selected ts tls).length = tls.length) ∧
    (∀ i, i ≠ tlIdx → i < tls.length →
       (cutSelectedMarkersAtModel tlIdx selected ts tls).getD i {} = tls.getD i {}) := by
  refine ⟨fun m => ?_, fun tl => ?_, ?_, ?_⟩
  · unfold cutMarkerAt
    cases hb : m.renderedBuffer with
    | none => exact ⟨rfl, rfl, rfl, rfl, rfl, rfl, rfl⟩
    | some buf =>
      dsimp only
      split_ifs <;> exact ⟨rfl, rfl, rfl, rfl, rfl, rfl, rfl⟩
  · unfold cutSelectedMarkersAt
    by_cases he : (cutTargets selected ts tl).isEmpty
    · rw [if_pos he]
      exact ⟨rfl, rfl, rfl, fun i hi => Or.inl rfl⟩
    · rw [if_neg he]
      refine ⟨by simp, rfl, rfl, fun i hi => ?_⟩
      set f := fun (j : ℕ) (m : Marker) =>
        if j ∈ cutTargets selected ts tl then cutMarkerAt ts m else m with hf
      have hilen : i < (tl.markers.mapIdx f).length := by simpa using hi
      have h1 : (tl.markers.mapIdx f).getD i {} = f i (tl.markers.get ⟨i, hi⟩) := by
        simp only [List.getD_eq_getElem?_getD, List.getElem?_eq_getElem hilen, Option.getD_some]
        simpa using List.get_mapIdx tl.markers f i hi
      have h2 : tl.markers.getD i {} = tl.markers.get ⟨i, hi⟩ := by
        simp only [List.getD_eq_getElem?_getD, List.getElem?_eq_getElem hi, Option.getD_some]
        simp [List.get_eq_getElem]
      by_cases hmem : i ∈ cutTargets selected ts tl
      · right
        rw [h1, h2, hf]
        simp [hmem]
      · left
        rw [h1, h2, hf]
        simp [hmem]
  · unfold cutSelectedMarkersAtModel
    simp
  · intro i hne hi
    unfold cutSelectedMarkersAtModel
    set g := fun (j : ℕ) (tl : Timeline) =>
      if j = tlIdx then cutSelectedMarkersAt selected ts tl else tl with hg
    have hilen : i < (tls.mapIdx g).length := by simpa using hi
    have h1 : (tls.mapIdx g).getD i {} = g i (tls.get ⟨i, hi⟩) := by
      simp only [List.getD_eq_getElem?_getD, List.getElem?_eq_getElem hilen, Option.getD_some]
      simpa using List.get_mapIdx tls g i hi
    have h2 : tls.getD i {} = tls.get ⟨i, hi⟩ := by
      simp only [List.getD_eq_getElem?_getD, List.getElem?_eq_getElem hi, Option.getD_some]
      simp [List.get_eq_getElem]
    rw [h1, h2, hg]
    simp [hne]

/-- Witness for claim C10: a concrete marker keeps its start time under
a cut, and a one-timeline model addressed at the other index is left
untouched. -/
theorem cutSelectedMarkersAt_frame_witness :
    (cutMarkerAt 2 ({ startTimeSeconds := 1 } : Marker)).startTimeSeconds =
      ({ startTimeSeconds := 1 } : Marker).startTimeSeconds ∧
    (cutSelectedMarkersAtModel 1 [] 2 [{}]).getD 0 {} = ([({} : Timeline)]).getD 0 {} :=
  ⟨((cutSelectedMarkersAt_frame [] 2 [{}] 1).1 { startTimeSeconds := 1 }).1,
   (cutSelectedMarkersAt_frame [] 2 [{}] 1).2.2.2 0 (by decide) (by decide)⟩

/-! ### Claims C5, C7, C9 -/

/-- Claim C5: the re-render decision fires iff the source path differs
from the cache stamp, or the tempo is not approximately equal to the
stamped tempo, or the desired render duration (as computed by
`getRenderDurationSecondsForMarker`) is not approximately equal to the
stamped duration — for any approximate-equality test standing for
`juce::approximatelyEqual`; and a marker for which the decision is false
gets no render job submitted. -/
theorem needsRerender_iff (approxEq : ℚ → ℚ → Bool) (tl : Timeline) (m : Marker) :
    (needsRerender approxEq tl m = true ↔
      (m.lastRenderedPythonPath ≠ m.pythonFile.fullPath ∨
       approxEq m.lastRenderedTempoBpm tl.tempoBpm = false ∨
       approxEq m.lastRenderedDurationSeconds (getRenderDurationSecondsForMarker tl m) = false)) ∧
    (needsRerender approxEq tl m = false →
      m ∉ rerenderTimelineMarkersIfNeeded approxEq tl) := by
  constructor
  · unfold needsRerender
    dsimp only
    split_ifs with h1 h2 h3 <;> simp_all
  · intro h hmem
    unfold rerenderTimelineMarkersIfNeeded at hmem
    rw [List.mem_filter] at hmem
    rw [h] at hmem
    simp at hmem

/-- Witness for claim C5: a marker whose cache stamp matches the default
timeline (one render bar, two-second bar at 120 bpm) is not re-submitted. -/
theorem needsRerender_iff_witness :
    ({ renderBars := 1, lastRenderedTempoBpm := 120, lastRenderedDurationSeconds := 2 } : Marker) ∉
      rerenderTimelineMarkersIfNeeded (fun a b => a == b) {} :=
  (needsRerender_iff (fun a b => a == b) {}
    { renderBars := 1, lastRenderedTempoBpm := 120, lastRenderedDurationSeconds := 2 }).2 (by decide)

/-- Claim C7: every failing render job run (missing source file, process
start failure, timeout with no output, unreadable output) leaves the
marker's `renderedBuffer` exactly as it was and reports `success = false`
with a non-empty reason that is not the success message. -/
theorem runJob_failure (env : RenderEnv) (sampleRate durationSeconds tempoBpm : ℚ) (m : Marker)
    (hfail : env.pythonFileExistsAsFile = false ∨ env.processStarted = false ∨
             env.wavFileProduced = false ∨ env.readerCreated = false) :
    (runJob env sampleRate durationSeconds tempoBpm m).1.renderedBuffer = m.renderedBuffer ∧
    (runJob env sampleRate durationSeconds tempoBpm m).2.1 = false ∧
    (runJob env sampleRate durationSeconds tempoBpm m).2.2 ≠ "Render complete" ∧
    (runJob env sampleRate durationSeconds tempoBpm m).2.2 ≠ "" := by
  cases hpy : env.pythonFileExistsAsFile <;> cases hps : env.processStarted <;>
    cases hwv : env.wavFileProduced <;> cases hrd : env.readerCreated <;>
    simp_all [runJob]

/-- Witness for claim C7: a job whose source file is missing. -/
theorem runJob_failure_witness :
    (runJob ⟨false, JFile.empty, false, false, false, 0, 0, []⟩ 44100 8 120 {}).1.renderedBuffer =
      ({} : Marker).renderedBuffer ∧
    (runJob ⟨false, JFile.empty, false, false, false, 0, 0, []⟩ 44100 8 120 {}).2.1 = false ∧
    (runJob ⟨false, JFile.empty, false, false, false, 0, 0, []⟩ 44100 8 120 {}).2.2 ≠ "Render complete" ∧
    (runJob ⟨false, JFile.empty, false, false, false, 0, 0, []⟩ 44100 8 120 {}).2.2 ≠ "" :=
  runJob_failure ⟨false, JFile.empty, false, false, false, 0, 0, []⟩ 44100 8 120 {} (Or.inl rfl)

/-- Claim C9 (failing input): `PythonRenderer::renderMarker` adds every
job to the shared pool unconditionally, so two requests for the same
marker leave two outstanding jobs for it while the pool has two worker
threads able to run them concurrently — the code has no per-marker
supersede/queue mechanism. -/
theorem renderMarker_no_per_marker_limit :
    ((renderMarker (renderMarker mkPythonRenderer 0 44100 8 120) 0 44100 8 120).jobs.filter
        (fun j => j.markerId == 0)).length = 2 ∧
    (renderMarker (renderMarker mkPythonRenderer 0 44100 8 120) 0 44100 8 120).numThreads = 2 := by
  decide

/-! ### Claim C6 -/

theorem restoreMarker_makeMarkerSnapshot (m : Marker) (i : ℤ) :
    restoreMarker (makeMarkerSnapshot m i) = eraseTransientMarker m := rfl

theorem restoreTimeline_snapshotTimeline (i : ℤ) (t : Timeline) :
    restoreTimeline (snapshotTimeline i t) =
      { t with markers := t.markers.map eraseTransientMarker } := by
  unfold restoreTimeline snapshotTimeline
  simp only [List.map_map]
  rfl

theorem restoreModel_snapshotModel (model : ModelState) :
    restoreModel (snapshotModel model) = eraseTransientModel model := by
  unfold restoreModel snapshotModel eraseTransientModel
  congr 1
  refine List.ext_getElem? fun i => ?_
  simp only [List.getElem?_map, List.getElem?_mapIdx]
  cases h : model.timelines[i]? with
  | none => rfl
  | some t => simp [restoreTimeline_snapshotTimeline]

theorem pushUndoState_length_le (st : UndoState) (h : st.undoSnapshots.length ≤ 10) :
    (pushUndoState st).undoSnapshots.length ≤ 10 := by
  unfold pushUndoState
  split
  · exact h
  · dsimp only
    split
    · rename_i hlen
      simp at hlen ⊢
      omega
    · rename_i hlen
      simp at hlen ⊢
      omega

theorem pushUndoState_iterate_length_le (n : ℕ) :
    ∀ st : UndoState, st.undoSnapshots.length ≤ 10 →
      (pushUndoState^[n] st).undoSnapshots.length ≤ 10 := by
  induction n with
  | zero =>
    intro st h10
    simpa using h10
  | succ k ih =>
    intro st h10
    rw [Function.iterate_succ_apply]
    exact ih (pushUndoState st) (pushUndoState_length_le st h10)

/-- Claim C6 (amended): `pushUndo` followed immediately by `undo`
restores the model bit-identically on every field that
`makeMarkerSnapshot` records — all Timeline fields and all Marker fields
including the rendered buffer contents — while the two transient Marker
fields it does not record (`isDragging`, `renderedWavFile`) are reset to
their `Marker()` defaults; and starting from a stack of at most 10
snapshots, any number of `pushUndo` calls leaves at most 10 (the oldest
is discarded). -/
theorem pushUndo_undo_roundtrip (st : UndoState) (h : st.isRestoring = false) :
    (undoSnapshot (pushUndoState st)).model = eraseTransientModel st.model ∧
    (st.undoSnapshots.length ≤ 10 →
       ∀ n, (pushUndoState^[n] st).undoSnapshots.length ≤ 10) := by
  refine ⟨?_, fun h10 n => pushUndoState_iterate_length_le n st h10⟩
  unfold pushUndoState
  rw [if_neg (by simp [h])]
  dsimp only
  unfold undoSnapshot
  rw [if_neg]
  · dsimp only
    have hlast :
        (if (st.undoSnapshots ++ [snapshotModel st.model]).length > 10
         then List.drop 1 (st.undoSnapshots ++ [snapshotModel st.model])
         else st.undoSnapshots ++ [snapshotModel st.model]).getLastD {} =
          snapshotModel st.model := by
      split
      · rename_i hlen
        simp at hlen
        have h1 : 1 ≤ st.undoSnapshots.length := by omega
        rw [List.drop_append_of_le_length h1, List.getLastD_concat]
      · rw [List.getLastD_concat]
    rw [hlast, restoreModel_snapshotModel]
  · rw [List.isEmpty_iff]
    split
    · rename_i hlen
      simp at hlen
      intro hcontra
      dsimp only at hcontra
      have hcl : (List.drop 1 (st.undoSnapshots ++ [snapshotModel st.model])).length = 0 := by
        rw [hcontra]
        rfl
      rw [List.length_drop, List.length_append] at hcl
      omega
    · intro hcontra
      dsimp only at hcontra
      have hcl := congrArg List.length hcontra
      simp at hcl
/-- Witness for claim C6 on the default (empty) state, with three pushes
for the cap. -/
theorem pushUndo_undo_roundtrip_witness :
    (undoSnapshot (pushUndoState ({} : UndoState))).model =
      eraseTransientModel ({} : UndoState).model ∧
    (pushUndoState^[3] ({} : UndoState)).undoSnapshots.length ≤ 10 :=
  ⟨(pushUndo_undo_roundtrip {} rfl).1,
   (pushUndo_undo_roundtrip {} rfl).2 (by decide) 3⟩

/-- Counterexample to claim C6 as stated: a marker that has been
rendered carries the temp WAV file path in `renderedWavFile`;
`makeMarkerSnapshot` does not record that field, so `pushUndo` followed
by `undo` resets it to the default `juce::File()` and the restored model
is not bit-identical to the original. -/
theorem pushUndo_undo_not_identity :
    (undoSnapshot (pushUndoState
        ({ model := ⟨[{ markers :=
            [{ renderedWavFile := ⟨"/tmp/render_1.wav", "render_1.wav"⟩ }] }]⟩ } : UndoState))).model ≠
      ({ model := ⟨[{ markers :=
          [{ renderedWavFile := ⟨"/tmp/render_1.wav", "render_1.wav"⟩ }] }]⟩ } : UndoState).model := by
  decide

/-! ### Claim C8 -/

theorem foldl_maxBy_ge_init {α : Type} (g : α → ℚ) (l : List α) (a : ℚ) :
    a ≤ l.foldl (fun v x => max v (g x)) a := by
  induction l generalizing a with
  | nil => exact le_refl a
  | cons x l ih => exact le_trans (le_max_left a (g x)) (ih (max a (g x)))

theorem foldl_maxBy_ge_mem {α : Type} (g : α → ℚ) (l : List α) :
    ∀ (a : ℚ) (x : α), x ∈ l → g x ≤ l.foldl (fun v x => max v (g x)) a := by
  induction l with
  | nil =>
    intro a x hx
    cases hx
  | cons y l ih =>
    intro a x hx
    rcases List.mem_cons.mp hx with h | h
    · subst h
      exact le_trans (le_max_right a (g x)) (foldl_maxBy_ge_init g l (max a (g x)))
    · exact ih (max a (g y)) x h

theorem foldl_maxBy_eq_init_or_mem {α : Type} (g : α → ℚ) (l : List α) :
    ∀ a : ℚ, l.foldl (fun v x => max v (g x)) a = a ∨
      ∃ x ∈ l, l.foldl (fun v x => max v (g x)) a = g x := by
  induction l with
  | nil =>
    intro a
    exact Or.inl rfl
  | cons y l ih =>
    intro a
    rcases ih (max a (g y)) with h | ⟨x, hx, h⟩
    · rcases max_choice a (g y) with hm | hm
      · exact Or.inl (by rw [List.foldl_cons, h, hm])
      · exact Or.inr ⟨y, List.mem_cons_self y l, by rw [List.foldl_cons, h, hm]⟩
    · exact Or.inr ⟨x, List.mem_cons_of_mem y hx, by rw [List.foldl_cons, h]⟩

theorem samplePeakAt_nonneg (b : AudioBuffer) (s : ℕ) : 0 ≤ samplePeakAt b s := by
  unfold samplePeakAt
  exact foldl_maxBy_ge_init (fun chl : List ℚ => |chl.getD s 0|) b.channels 0

theorem samplePeakAt_ge (b : AudioBuffer) (s ch : ℕ) (hch : ch < b.channels.length) :
    |b.getSample ch s| ≤ samplePeakAt b s := by
  unfold samplePeakAt AudioBuffer.getSample
  have hmem : b.channels.getD ch [] ∈ b.channels := by
    have hd : b.channels.getD ch [] = b.channels[ch] := by
      rw [List.getD_eq_getElem?_getD, List.getElem?_eq_getElem hch, Option.getD_some]
    rw [hd]
    exact List.mem_iff_getElem.mpr ⟨ch, hch, rfl⟩
  have h := foldl_maxBy_ge_mem (fun chl : List ℚ => |chl.getD s 0|) b.channels 0
    (b.channels.getD ch []) hmem
  exact h

theorem samplePeakAt_attained (b : AudioBuffer) (s : ℕ) :
    samplePeakAt b s = 0 ∨
      ∃ ch, ch < b.channels.length ∧ samplePeakAt b s = |b.getSample ch s| := by
  unfold samplePeakAt
  have h0 := foldl_maxBy_eq_init_or_mem (fun chl : List ℚ => |chl.getD s 0|) b.channels 0
  rcases h0 with h | ⟨chl, hmem, h⟩
  · exact Or.inl h
  · rcases List.mem_iff_getElem.mp hmem with ⟨i, hi, hget⟩
    refine Or.inr ⟨i, hi, ?_⟩
    have hd : b.channels.getD i [] = chl := by
      rw [List.getD_eq_getElem?_getD, List.getElem?_eq_getElem hi, Option.getD_some, hget]
    unfold AudioBuffer.getSample
    rw [hd]
    exact h

theorem binPeak_nonneg (b : AudioBuffer) (s e : ℕ) : 0 ≤ binPeak b s e := by
  unfold binPeak
  have h := foldl_maxBy_ge_init (fun x : ℚ => x)
    ((List.range (e - s)).map (fun j => samplePeakAt b (s + j))) 0
  simpa using h

theorem binPeak_ge (b : AudioBuffer) (s e j : ℕ) (hj : j < e - s) :
    samplePeakAt b (s + j) ≤ binPeak b s e := by
  unfold binPeak
  have hmem : samplePeakAt b (s + j) ∈
      (List.range (e - s)).map (fun j => samplePeakAt b (s + j)) :=
    List.mem_map.mpr ⟨j, List.mem_range.mpr hj, rfl⟩
  have h := foldl_maxBy_ge_mem (fun x : ℚ => x)
    ((List.range (e - s)).map (fun j => samplePeakAt b (s + j))) 0 _ hmem
  simpa using h

theorem binPeak_attained (b : AudioBuffer) (s e : ℕ) :
    binPeak b s e = 0 ∨ ∃ j, j < e - s ∧ binPeak b s e = samplePeakAt b (s + j) := by
  unfold binPeak
  have h0 := foldl_maxBy_eq_init_or_mem (fun x : ℚ => x)
    ((List.range (e - s)).map (fun j => samplePeakAt b (s + j))) 0
  simp only [id] at h0
  rcases h0 with h | ⟨x, hmem, h⟩
  · left
    simpa using h
  · rcases List.mem_map.mp hmem with ⟨j, hj, hx⟩
    right
    exact ⟨j, List.mem_range.mp hj, by rw [h, ← hx]⟩

theorem waveformBinRange_eq (total i : ℕ) :
    waveformBinRange total i =
      (i * total / 200,
       min (max ((i + 1) * total / 200) (i * total / 200 + 1)) total) := by
  unfold waveformBinRange
  dsimp only
  rcases le_or_lt ((i + 1) * total / 200) (i * total / 200) with h | h
  · rw [if_pos h, max_eq_right (by omega)]
  · rw [if_neg (not_le.mpr h), max_eq_left (by omega)]

/-- Claim C8 (amended): for a non-empty buffer the computed waveform
summary has exactly 200 entries, and entry `i` is the maximum absolute
sample amplitude across all channels over the bin
`[i*total/200, min (max ((i+1)*total/200) (i*total/200 + 1)) total)`,
clamped to `[0, 1]` — the maximum stated as: an upper bound over the
bin that is attained unless it is 0.  The bins are floor-partitioned
with widths differing by at most one (and overlap single samples when
`total < 200`); they are not equal-width with only the last one
shorter. -/
theorem recomputeWaveformList_spec (b : AudioBuffer) (hpos : 0 < b.numSamples)
    (i : ℕ) (hi : i < 200) :
    (recomputeWaveformList (some b)).length = 200 ∧
    ∃ peak : ℚ,
      (recomputeWaveformList (some b)).getD i 0 = jlimit 0 1 peak ∧
      0 ≤ peak ∧
      (∀ ch s, ch < b.channels.length →
         i * b.numSamples / 200 ≤ s →
         s < min (max ((i + 1) * b.numSamples / 200) (i * b.numSamples / 200 + 1)) b.numSamples →
         |b.getSample ch s| ≤ peak) ∧
      (peak = 0 ∨
       ∃ ch s, ch < b.channels.length ∧
         i * b.numSamples / 200 ≤ s ∧
         s < min (max ((i + 1) * b.numSamples / 200) (i * b.numSamples / 200 + 1)) b.numSamples ∧
         |b.getSample ch s| = peak) := by
  have hcode : recomputeWaveformList (some b) =
      (List.range 200).map (fun i =>
        let r := waveformBinRange b.numSamples i
        jlimit 0 1 (binPeak b r.1 r.2)) := by
    unfold recomputeWaveformList
    dsimp only
    rw [if_neg (show ¬ b.numSamples ≤ 0 by omega)]
  set start := i * b.numSamples / 200 with hstart
  set stop := min (max ((i + 1) * b.numSamples / 200) (start + 1)) b.numSamples with hstop
  have hrange : waveformBinRange b.numSamples i = (start, stop) := waveformBinRange_eq _ _
  refine ⟨by rw [hcode]; simp, binPeak b start stop, ?_, binPeak_nonneg b start stop, ?_, ?_⟩
  · rw [hcode, List.getD_eq_getElem?_getD, List.getElem?_map, List.getElem?_range hi]
    simp only [Option.map_some', Option.map_some, Option.getD_some, waveformBinRange_eq]
  · intro ch s hch hs1 hs2
    have hj : s - start < stop - start := by omega
    have h1 : |b.getSample ch s| ≤ samplePeakAt b s := samplePeakAt_ge b s ch hch
    have h2 : samplePeakAt b (start + (s - start)) ≤ binPeak b start stop :=
      binPeak_ge b start stop (s - start) hj
    have hseq : start + (s - start) = s := by omega
    rw [hseq] at h2
    exact le_trans h1 h2
  · rcases binPeak_attained b start stop with h | ⟨j, hj, h⟩
    · exact Or.inl h
    · rcases samplePeakAt_attained b (start + j) with h2 | ⟨ch, hch, h2⟩
      · exact Or.inl (by rw [h, h2])
      · refine Or.inr ⟨ch, start + j, hch, by omega, by omega, ?_⟩
        rw [h, h2]

/-- Counterexample to claim C8 as stated: on a 3-sample single-channel
buffer `[0, 1, 0]` the code's bin 100 starts at sample
`100*3/200 = 1` and holds the peak 1, while the equal-width partition
of the claim (width `ceil(3/200) = 1`, only the last bin shorter) leaves
bin 100 empty, so its value is 0. -/
theorem recomputeWaveformList_not_equal_width :
    recomputeWaveformList (some ⟨3, [[0, 1, 0]]⟩) ≠ equalWidthWaveformList ⟨3, [[0, 1, 0]]⟩ ∧
    (recomputeWaveformList (some ⟨3, [[0, 1, 0]]⟩)).getD 100 0 = 1 ∧
    (equalWidthWaveformList ⟨3, [[0, 1, 0]]⟩).getD 100 0 = 0 := by
  refine ⟨?_, by decide, by decide⟩
  intro h
  have h100 := congrArg (fun l => l.getD 100 (0 : ℚ)) h
  simp only [] at h100
  rw [show (recomputeWaveformList (some ⟨3, [[0, 1, 0]]⟩)).getD 100 0 = 1 from by decide,
    show (equalWidthWaveformList ⟨3, [[0, 1, 0]]⟩).getD 100 0 = 0 from by decide] at h100
  exact absurd h100 (by norm_num)

/-- Witness for claim C8 (amended) on the 3-sample buffer at bin 100. -/
theorem recomputeWaveformList_spec_witness :
    (recomputeWaveformList (some ⟨3, [[0, 1, 0]]⟩)).length = 200 :=
  (recomputeWaveformList_spec ⟨3, [[0, 1, 0]]⟩ (by decide) 100 (by decide)).1
